import Mathlib

/-!
Verification of the protegoSei resource-service core.

The repository contains a build script (`centrium-grpc-server/build.rs`) and a
service module (`game_bloc-grpc-server/src/services/db.rs`) whose body is
commented-out placeholder code.  The specification documents the minimal core
implied by the scaffold: a service exposing create/get for two resource kinds
(User, Product) backed by a document store with insert-one and
find-one-by-identifier operations.  This file embeds that core, modelled from
the spec where the repository has no executable implementation, and embeds the
build script directly from its source.
-/

namespace ProtegoSei

/-- A persisted User document: identifier, name, email
(spec section 3; commented sketch in db.rs lines 4-9). -/
structure User where
  id : String
  name : String
  email : String
  deriving DecidableEq

/-- A persisted Product document: identifier, name, description, price
(spec section 3; commented sketch in db.rs lines 11-17).  The spec calls the
price a non-negative number; we model it as an integer, which suffices for the
sign checks the spec requires. -/
structure Product where
  id : String
  name : String
  description : String
  price : Int
  deriving DecidableEq

/-- The error taxonomy of spec section 7: InvalidArgument, NotFound, Internal. -/
inductive ErrorKind where
  | invalidArgument
  | notFound
  | internal
  deriving DecidableEq

/-- A typed service failure: an error kind plus a message (spec section 7). -/
structure ServiceError where
  kind : ErrorKind
  message : String
  deriving DecidableEq

/-- A store-level failure (unreachable store or rejected write, spec 4.1). -/
structure StoreError where
  message : String
  deriving DecidableEq

/-- Outcome of a find-one-by-identifier store call: the document, or a
NotFound outcome that is not an exception (spec 4.1). -/
inductive FindResult (α : Type) where
  | found : α → FindResult α
  | notFound : FindResult α
  deriving DecidableEq

/-- The persisted state: the two collections, the identifier-generation
counter, and whether the underlying store is reachable (spec sections 3, 4.1,
6).  Each entity is owned exclusively by its collection. -/
structure StoreState where
  users : List User
  products : List Product
  nextId : Nat
  reachable : Bool
  deriving DecidableEq

/-- Modelled from the spec: identifiers are opaque unique strings assigned at
creation (spec section 3 and glossary).  The repository has no executable
generator (the commented sketch calls an external random ObjectId), so we
model generation as an injective function of the store creation counter:
injectivity is exactly the freshness the spec demands. -/
def mkId (n : Nat) : String :=
  String.mk ('i' :: 'd' :: List.replicate n '-')

/-- Modelled from the spec: the spec calls identifiers opaque strings and
names no concrete well-formedness check beyond rejecting malformed or missing
input, while its own example treats the identifier string nonexistent-id as
well-formed (it must reach NotFound).  We model a well-formed identifier as a
non-empty string. -/
def wellFormedId (id : String) : Bool :=
  !id.isEmpty

/-- Modelled from the spec (4.1): the adapter find-one-by-identifier call.
Fails with StoreError on an unreachable store; otherwise returns the first
document whose identifier matches, or a NotFound outcome (not an exception)
when no document matches. -/
def find_by_id {α : Type} (key : α → String) (reachable : Bool)
    (coll : List α) (id : String) : Except StoreError (FindResult α) :=
  if reachable then
    match coll.find? (fun d => key d == id) with
    | some d => .ok (.found d)
    | none => .ok .notFound
  else
    .error ⟨"store unreachable"⟩

/-- Modelled from the spec (4.1): the adapter insert-one call.  Stores the
document; fails with StoreError when the store is unreachable or the write is
rejected. -/
def insert_one {α : Type} (reachable : Bool) (coll : List α) (d : α) :
    Except StoreError (List α) :=
  if reachable then .ok (coll ++ [d]) else .error ⟨"store unreachable"⟩

/-- Modelled from the spec (4.2): create_user validates that neither name nor
email is empty, generates a fresh identifier, persists the User document
through the adapter, and returns identifier, name and email; a store failure
is mapped to an Internal error. -/
def create_user (st : StoreState) (name email : String) :
    Except ServiceError User × StoreState :=
  if name.isEmpty || email.isEmpty then
    (.error ⟨.invalidArgument, "name or email is empty"⟩, st)
  else
    let u : User := ⟨mkId st.nextId, name, email⟩
    match insert_one st.reachable st.users u with
    | .ok users2 =>
        (.ok u, { st with users := users2, nextId := st.nextId + 1 })
    | .error e => (.error ⟨.internal, e.message⟩, st)

/-- Modelled from the spec (4.2): get_user fails with InvalidArgument on a
non-well-formed identifier, otherwise delegates to the adapter and maps a
missing document to NotFound and a store failure to Internal; on success it
returns the stored fields. -/
def get_user (st : StoreState) (id : String) :
    Except ServiceError User × StoreState :=
  if !wellFormedId id then
    (.error ⟨.invalidArgument, "invalid identifier"⟩, st)
  else
    match find_by_id User.id st.reachable st.users id with
    | .ok (.found u) => (.ok u, st)
    | .ok .notFound => (.error ⟨.notFound, "User not found"⟩, st)
    | .error e => (.error ⟨.internal, e.message⟩, st)

/-- Modelled from the spec (4.2): create_product validates that the name is
non-empty and the price non-negative, generates a fresh identifier, persists
the Product document, and returns all fields; a store failure is mapped to an
Internal error. -/
def create_product (st : StoreState) (name description : String) (price : Int) :
    Except ServiceError Product × StoreState :=
  if name.isEmpty || price < 0 then
    (.error ⟨.invalidArgument, "name is empty or price is negative"⟩, st)
  else
    let p : Product := ⟨mkId st.nextId, name, description, price⟩
    match insert_one st.reachable st.products p with
    | .ok products2 =>
        (.ok p, { st with products := products2, nextId := st.nextId + 1 })
    | .error e => (.error ⟨.internal, e.message⟩, st)

/-- Modelled from the spec (4.2): get_product, same contract as get_user for
the product collection. -/
def get_product (st : StoreState) (id : String) :
    Except ServiceError Product × StoreState :=
  if !wellFormedId id then
    (.error ⟨.invalidArgument, "invalid identifier"⟩, st)
  else
    match find_by_id Product.id st.reachable st.products id with
    | .ok (.found p) => (.ok p, st)
    | .ok .notFound => (.error ⟨.notFound, "Product not found"⟩, st)
    | .error e => (.error ⟨.internal, e.message⟩, st)

/-- The error kind with which a service call failed, if it failed. -/
def errKind {α : Type} : Except ServiceError α → Option ErrorKind
  | .error e => some e.kind
  | .ok _ => none

/-- One of the four service operations (spec section 6). -/
inductive Op where
  | createUser (name email : String)
  | getUser (id : String)
  | createProduct (name description : String) (price : Int)
  | getProduct (id : String)

/-- The state after one operation. -/
def step (st : StoreState) : Op → StoreState
  | .createUser n e => (create_user st n e).2
  | .getUser i => (get_user st i).2
  | .createProduct n d p => (create_product st n d p).2
  | .getProduct i => (get_product st i).2

/-- The state after a sequence of operations. -/
def runOps (st : StoreState) : List Op → StoreState
  | [] => st
  | op :: ops => runOps (step st op) ops

/-- Every persisted identifier was produced by the generator at a counter
value below the current one (so the next generated identifier is fresh), and
identifiers are unique within each collection (spec section 3 invariant). -/
def Inv (st : StoreState) : Prop :=
  (∀ u ∈ st.users, ∃ k, k < st.nextId ∧ u.id = mkId k) ∧
  (∀ p ∈ st.products, ∃ k, k < st.nextId ∧ p.id = mkId k) ∧
  (st.users.map User.id).Nodup ∧
  (st.products.map Product.id).Nodup

/-- The empty initial state over a reachable store. -/
def initState : StoreState :=
  ⟨[], [], 0, true⟩

/-! ### Helper lemmas -/

/-- The identifier generator is injective: distinct counter values yield
distinct identifiers. -/
lemma mkId_inj {m n : Nat} (h : mkId m = mkId n) : m = n := by
  have hd : ('i' :: 'd' :: List.replicate m '-') =
      ('i' :: 'd' :: List.replicate n '-') :=
    congrArg String.data h
  have hlen := congrArg List.length hd
  simpa using hlen

/-- Generated identifiers are non-empty, hence well-formed. -/
lemma mkId_wellFormed (n : Nat) : wellFormedId (mkId n) = true := by
  have hne : mkId n ≠ "" := by
    intro h
    have hd : ('i' :: 'd' :: List.replicate n '-') = ([] : List Char) :=
      congrArg String.data h
    exact List.cons_ne_nil _ _ hd
  simp only [wellFormedId, Bool.not_eq_true']
  exact Bool.eq_false_iff.2 fun h => hne ((String.isEmpty_iff _).1 h)

/-- No generated identifier is the string nonexistent-id. -/
lemma mkId_ne_nonexistent (n : Nat) : mkId n ≠ "nonexistent-id" := by
  intro h
  have hd := congrArg String.data h
  simp [mkId, String.data] at hd

/-- If no element of the list matches the key, find? on the list with one
matching element appended returns that element. -/
lemma find?_append_fresh {α : Type} (key : α → String) (l : List α) (u : α)
    (i : String) (hl : ∀ x ∈ l, key x ≠ i) (hu : key u = i) :
    (l ++ [u]).find? (fun d => key d == i) = some u := by
  induction l with
  | nil => simp [List.find?, hu]
  | cons b t ih =>
      have hb : (key b == i) = false := by
        simpa using hl b (by simp)
      simp only [List.cons_append, List.find?_cons, hb]
      exact ih fun x hx => hl x (by simp [hx])

/-- If the keys of the list are distinct, find? locates any given member by
its key. -/
lemma find?_mem_nodup {α : Type} (key : α → String) (l : List α) (u : α)
    (i : String) (hnd : (l.map key).Nodup) (hu : u ∈ l) (hk : key u = i) :
    l.find? (fun d => key d == i) = some u := by
  induction l with
  | nil => cases hu
  | cons b t ih =>
      rcases List.mem_cons.1 hu with hub | hut
      · subst hub
        simp [List.find?_cons, hk]
      · have hbt : key b ∉ t.map key := (List.nodup_cons.1 hnd).1
        have hb : (key b == i) = false := by
          simp only [beq_eq_false_iff_ne, ne_eq]
          intro hbi
          exact hbt (hbi ▸ hk ▸ List.mem_map_of_mem key hut)
        simp only [List.find?_cons, hb]
        exact ih (List.nodup_cons.1 hnd).2 hut

/-- A single operation preserves the store invariant. -/
lemma Inv_step (st : StoreState) (op : Op) (h : Inv st) : Inv (step st op) := by
  obtain ⟨hu, hp, hnu, hnp⟩ := h
  cases op with
  | createUser name email =>
      simp only [step, create_user, insert_one]
      by_cases hv : (name.isEmpty || email.isEmpty) = true
      · simp [hv]; exact ⟨hu, hp, hnu, hnp⟩
      · by_cases hr : st.reachable = true
        · simp only [hv, hr, Bool.false_eq_true, if_false, if_true]
          refine ⟨?_, ?_, ?_, hnp⟩
          · intro u hmem
            rcases List.mem_append.1 hmem with hold | hnew
            · obtain ⟨k, hk, hid⟩ := hu u hold
              exact ⟨k, Nat.lt_succ_of_lt hk, hid⟩
            · simp only [List.mem_singleton] at hnew
              exact ⟨st.nextId, Nat.lt_succ_self _, by simp [hnew]⟩
          · intro p hmem
            obtain ⟨k, hk, hid⟩ := hp p hmem
            exact ⟨k, Nat.lt_succ_of_lt hk, hid⟩
          · simp only [List.map_append, List.map_cons, List.map_nil]
            refine List.Nodup.append hnu (by simp) ?_
            intro a ha hb
            simp only [List.mem_singleton] at hb
            subst hb
            obtain ⟨u, humem, huid⟩ := List.mem_map.1 ha
            obtain ⟨k, hk, hid⟩ := hu u humem
            have hkk : mkId k = mkId st.nextId := by rw [← hid, huid]
            exact absurd (mkId_inj hkk) (Nat.ne_of_lt hk)
        · simp only [Bool.not_eq_true] at hr
          simp [hv, hr]; exact ⟨hu, hp, hnu, hnp⟩
  | getUser i =>
      simp only [step, get_user]
      by_cases hw : wellFormedId i = true
      · simp only [hw, Bool.not_true, Bool.false_eq_true, if_false]
        rcases hfind : find_by_id User.id st.reachable st.users i with e | fr
        · simp [hfind]; exact ⟨hu, hp, hnu, hnp⟩
        · cases fr <;> simp [hfind] <;> exact ⟨hu, hp, hnu, hnp⟩
      · simp only [Bool.not_eq_true] at hw
        simp [hw]; exact ⟨hu, hp, hnu, hnp⟩
  | createProduct name description price =>
      simp only [step, create_product, insert_one]
      by_cases hv : (name.isEmpty || decide (price < 0)) = true
      · simp [hv]; exact ⟨hu, hp, hnu, hnp⟩
      · by_cases hr : st.reachable = true
        · simp only [hv, hr, Bool.false_eq_true, if_false, if_true]
          refine ⟨?_, ?_, hnu, ?_⟩
          · intro u hmem
            obtain ⟨k, hk, hid⟩ := hu u hmem
            exact ⟨k, Nat.lt_succ_of_lt hk, hid⟩
          · intro p hmem
            rcases List.mem_append.1 hmem with hold | hnew
            · obtain ⟨k, hk, hid⟩ := hp p hold
              exact ⟨k, Nat.lt_succ_of_lt hk, hid⟩
            · simp only [List.mem_singleton] at hnew
              exact ⟨st.nextId, Nat.lt_succ_self _, by simp [hnew]⟩
          · simp only [List.map_append, List.map_cons, List.map_nil]
            refine List.Nodup.append hnp (by simp) ?_
            intro a ha hb
            simp only [List.mem_singleton] at hb
            subst hb
            obtain ⟨p, hpmem, hpid⟩ := List.mem_map.1 ha
            obtain ⟨k, hk, hid⟩ := hp p hpmem
            have hkk : mkId k = mkId st.nextId := by rw [← hid, hpid]
            exact absurd (mkId_inj hkk) (Nat.ne_of_lt hk)
        · simp only [Bool.not_eq_true] at hr
          simp [hv, hr]; exact ⟨hu, hp, hnu, hnp⟩
  | getProduct i =>
      simp only [step, get_product]
      by_cases hw : wellFormedId i = true
      · simp only [hw, Bool.not_true, Bool.false_eq_true, if_false]
        rcases hfind : find_by_id Product.id st.reachable st.products i with e | fr
        · simp [hfind]; exact ⟨hu, hp, hnu, hnp⟩
        · cases fr <;> simp [hfind] <;> exact ⟨hu, hp, hnu, hnp⟩
      · simp only [Bool.not_eq_true] at hw
        simp [hw]; exact ⟨hu, hp, hnu, hnp⟩

/-- A single operation only appends to each collection: existing documents
remain, unchanged, in their collection. -/
lemma step_extends (st : StoreState) (op : Op) :
    ∃ us ps, (step st op).users = st.users ++ us ∧
      (step st op).products = st.products ++ ps := by
  cases op with
  | createUser name email =>
      simp only [step, create_user, insert_one]
      by_cases hv : (name.isEmpty || email.isEmpty) = true
      · exact ⟨[], [], by simp [hv], by simp [hv]⟩
      · by_cases hr : st.reachable = true
        · exact ⟨[⟨mkId st.nextId, name, email⟩], [],
            by simp [hv, hr], by simp [hv, hr]⟩
        · simp only [Bool.not_eq_true] at hr
          exact ⟨[], [], by simp [hv, hr], by simp [hv, hr]⟩
  | getUser i =>
      refine ⟨[], [], ?_, ?_⟩ <;>
        · simp only [step, get_user]
          rcases hfind : find_by_id User.id st.reachable st.users i with e | fr
          · by_cases hw : wellFormedId i = true <;> simp [hw, hfind]
          · by_cases hw : wellFormedId i = true <;> cases fr <;> simp [hw, hfind]
  | createProduct name description price =>
      simp only [step, create_product, insert_one]
      by_cases hv : (name.isEmpty || decide (price < 0)) = true
      · exact ⟨[], [], by simp [hv], by simp [hv]⟩
      · by_cases hr : st.reachable = true
        · exact ⟨[], [⟨mkId st.nextId, name, description, price⟩],
            by simp [hv, hr], by simp [hv, hr]⟩
        · simp only [Bool.not_eq_true] at hr
          exact ⟨[], [], by simp [hv, hr], by simp [hv, hr]⟩
  | getProduct i =>
      refine ⟨[], [], ?_, ?_⟩ <;>
        · simp only [step, get_product]
          rcases hfind : find_by_id Product.id st.reachable st.products i with e | fr
          · by_cases hw : wellFormedId i = true <;> simp [hw, hfind]
          · by_cases hw : wellFormedId i = true <;> cases fr <;> simp [hw, hfind]

/-- Running a sequence of operations preserves the store invariant. -/
lemma Inv_runOps (ops : List Op) (st : StoreState) (h : Inv st) :
    Inv (runOps st ops) := by
  induction ops generalizing st with
  | nil => exact h
  | cons op ops ih => exact ih _ (Inv_step st op h)

/-- Running a sequence of operations only appends to each collection. -/
lemma runOps_extends (ops : List Op) (st : StoreState) :
    ∃ us ps, (runOps st ops).users = st.users ++ us ∧
      (runOps st ops).products = st.products ++ ps := by
  induction ops generalizing st with
  | nil => exact ⟨[], [], by simp [runOps], by simp [runOps]⟩
  | cons op ops ih =>
      obtain ⟨us1, ps1, h1u, h1p⟩ := step_extends st op
      obtain ⟨us2, ps2, h2u, h2p⟩ := ih (step st op)
      exact ⟨us1 ++ us2, ps1 ++ ps2,
        by simp [runOps, h2u, h1u], by simp [runOps, h2p, h1p]⟩

/-- get_user leaves the state untouched in every branch. -/
lemma get_user_snd (st : StoreState) (id : String) : (get_user st id).2 = st := by
  simp only [get_user]
  split
  · rfl
  · split <;> rfl

/-- get_product leaves the state untouched in every branch. -/
lemma get_product_snd (st : StoreState) (id : String) :
    (get_product st id).2 = st := by
  simp only [get_product]
  split
  · rfl
  · split <;> rfl

/-- When create_user fails, the state is untouched. -/
lemma create_user_error_snd (st : StoreState) (name email : String)
    (err : ServiceError) (h : (create_user st name email).1 = .error err) :
    (create_user st name email).2 = st := by
  by_cases hv : (name.isEmpty || email.isEmpty) = true
  · simp [create_user, hv]
  · simp only [Bool.not_eq_true] at hv
    by_cases hr : st.reachable = true
    · simp [create_user, hv, insert_one, hr] at h
    · simp only [Bool.not_eq_true] at hr
      simp [create_user, hv, insert_one, hr]

/-- When create_product fails, the state is untouched. -/
lemma create_product_error_snd (st : StoreState) (name description : String)
    (price : Int) (err : ServiceError)
    (h : (create_product st name description price).1 = .error err) :
    (create_product st name description price).2 = st := by
  by_cases hv : (name.isEmpty || decide (price < 0)) = true
  · simp [create_product, hv]
  · simp only [Bool.not_eq_true] at hv
    by_cases hr : st.reachable = true
    · simp [create_product, hv, insert_one, hr] at h
    · simp only [Bool.not_eq_true] at hr
      simp [create_product, hv, insert_one, hr]

/-- Every service error carries one of the three documented kinds. -/
lemma errorKind_cases (e : ServiceError) :
    e.kind = .invalidArgument ∨ e.kind = .notFound ∨ e.kind = .internal := by
  rcases e with ⟨k, m⟩
  cases k <;> simp

/-! ### The build script (centrium-grpc-server/build.rs) -/

/-- The path of the protocol definition file checked by build.rs (line 6). -/
def protoFile : String := "proto/centrium.proto"

/-- The build-time environment seen by build.rs: the OUT_DIR variable, which
files exist, and the result of the tonic compilation step. -/
structure BuildEnv where
  outDir : Option String
  fileExists : String → Bool
  compileResult : Except String Unit

/-- Outcome of running the build script: the value main returns, and whether
the protocol compilation step was attempted. -/
structure BuildOutcome where
  result : Except String Unit
  compileAttempted : Bool

/-- Shallow embedding of main in centrium-grpc-server/build.rs (lines 5-21):
main reads OUT_DIR (the unwrap panics when it is absent, modelled as none),
returns Err with a message naming the proto file when that file does not
exist, and otherwise runs the tonic compilation and propagates its result. -/
def buildMain (env : BuildEnv) : Option BuildOutcome :=
  match env.outDir with
  | none => none
  | some _ =>
    if !env.fileExists protoFile then
      some ⟨.error ("Proto file " ++ protoFile ++ " not found"), false⟩
    else
      match env.compileResult with
      | .ok _ => some ⟨.ok (), true⟩
      | .error e => some ⟨.error e, true⟩

/-! ### Claim theorems -/

/-- C1: for every valid input pair (name, email), calling create_user and then
get_user on the identifier returned by that create_user call succeeds and
returns the same name and email that were passed to create_user. -/
theorem claim_C1 (st : StoreState) (name email : String) (u : User)
    (hInv : Inv st) (h : (create_user st name email).1 = .ok u) :
    (get_user (create_user st name email).2 u.id).1 = .ok u ∧
      u.name = name ∧ u.email = email := by
  by_cases hv : (name.isEmpty || email.isEmpty) = true
  · simp [create_user, hv] at h
  · simp only [Bool.not_eq_true] at hv
    by_cases hr : st.reachable = true
    · have hcu : create_user st name email =
          (.ok ⟨mkId st.nextId, name, email⟩,
           { st with users := st.users ++ [⟨mkId st.nextId, name, email⟩],
                     nextId := st.nextId + 1 }) := by
        simp [create_user, hv, insert_one, hr]
      rw [hcu] at h
      simp only [Except.ok.injEq] at h
      subst h
      rw [hcu]
      refine ⟨?_, rfl, rfl⟩
      have hfresh : ∀ x ∈ st.users, User.id x ≠ mkId st.nextId := by
        intro x hx hEq
        obtain ⟨k, hk, hid⟩ := hInv.1 x hx
        have hkk : mkId k = mkId st.nextId := by rw [← hid, hEq]
        exact Nat.ne_of_lt hk (mkId_inj hkk)
      have hfind := find?_append_fresh User.id st.users
        ⟨mkId st.nextId, name, email⟩ (mkId st.nextId) hfresh rfl
      simp [get_user, mkId_wellFormed, find_by_id, hr, hfind]
    · simp only [Bool.not_eq_true] at hr
      simp [create_user, hv, insert_one, hr] at h

/-- C2: for every valid input triple (name, description, price) with price at
least zero, calling create_product and then get_product on the identifier
returned by that create_product call succeeds and returns the same name,
description and price that were passed to create_product. -/
theorem claim_C2 (st : StoreState) (name description : String) (price : Int)
    (p : Product) (hInv : Inv st)
    (h : (create_product st name description price).1 = .ok p) :
    (get_product (create_product st name description price).2 p.id).1 = .ok p ∧
      p.name = name ∧ p.description = description ∧ p.price = price := by
  by_cases hv : (name.isEmpty || decide (price < 0)) = true
  · simp [create_product, hv] at h
  · simp only [Bool.not_eq_true] at hv
    by_cases hr : st.reachable = true
    · have hcp : create_product st name description price =
          (.ok ⟨mkId st.nextId, name, description, price⟩,
           { st with
              products := st.products ++ [⟨mkId st.nextId, name, description, price⟩],
              nextId := st.nextId + 1 }) := by
        simp [create_product, hv, insert_one, hr]
      rw [hcp] at h
      simp only [Except.ok.injEq] at h
      subst h
      rw [hcp]
      refine ⟨?_, rfl, rfl, rfl⟩
      have hfresh : ∀ x ∈ st.products, Product.id x ≠ mkId st.nextId := by
        intro x hx hEq
        obtain ⟨k, hk, hid⟩ := hInv.2.1 x hx
        have hkk : mkId k = mkId st.nextId := by rw [← hid, hEq]
        exact Nat.ne_of_lt hk (mkId_inj hkk)
      have hfind := find?_append_fresh Product.id st.products
        ⟨mkId st.nextId, name, description, price⟩ (mkId st.nextId) hfresh rfl
      simp [get_product, mkId_wellFormed, find_by_id, hr, hfind]
    · simp only [Bool.not_eq_true] at hr
      simp [create_product, hv, insert_one, hr] at h

/-- Witness for C1 at a concrete creation on the empty initial state. -/
theorem claim_C1_witness :
    (get_user (create_user initState "a" "b").2
        (⟨mkId 0, "a", "b"⟩ : User).id).1 = .ok ⟨mkId 0, "a", "b"⟩ ∧
      (⟨mkId 0, "a", "b"⟩ : User).name = "a" ∧
      (⟨mkId 0, "a", "b"⟩ : User).email = "b" :=
  claim_C1 initState "a" "b" ⟨mkId 0, "a", "b"⟩
    (by simp [Inv, initState]) (by rfl)

/-- Witness for C2 at a concrete creation on the empty initial state. -/
theorem claim_C2_witness :
    (get_product (create_product initState "Widget" "desc" 5).2
        (⟨mkId 0, "Widget", "desc", 5⟩ : Product).id).1 =
        .ok ⟨mkId 0, "Widget", "desc", 5⟩ ∧
      (⟨mkId 0, "Widget", "desc", 5⟩ : Product).name = "Widget" ∧
      (⟨mkId 0, "Widget", "desc", 5⟩ : Product).description = "desc" ∧
      (⟨mkId 0, "Widget", "desc", 5⟩ : Product).price = 5 :=
  claim_C2 initState "Widget" "desc" 5 ⟨mkId 0, "Widget", "desc", 5⟩
    (by simp [Inv, initState]) (by rfl)

/-- C3: create_user fails with an InvalidArgument error whenever the name or
the email argument is empty, and no document is persisted in that case. -/
theorem claim_C3 (st : StoreState) (name email : String)
    (h : name = "" ∨ email = "") :
    errKind (create_user st name email).1 = some .invalidArgument ∧
      (create_user st name email).2 = st := by
  have hv : (name.isEmpty || email.isEmpty) = true := by
    rcases h with h | h <;> rw [h] <;> simp [String.isEmpty_iff]
  simp [create_user, hv, errKind]

/-- Witness for C3 at the concrete input from the spec. -/
theorem claim_C3_witness :
    errKind (create_user initState "" "a@b.com").1 = some .invalidArgument ∧
      (create_user initState "" "a@b.com").2 = initState :=
  claim_C3 initState "" "a@b.com" (Or.inl rfl)

/-- C4: create_product fails with an InvalidArgument error whenever the name
argument is empty or the price argument is negative, and no document is
persisted in that case. -/
theorem claim_C4 (st : StoreState) (name description : String) (price : Int)
    (h : name = "" ∨ price < 0) :
    errKind (create_product st name description price).1 =
        some .invalidArgument ∧
      (create_product st name description price).2 = st := by
  have hv : (name.isEmpty || decide (price < 0)) = true := by
    rcases h with h | h
    · rw [h]; simp [String.isEmpty_iff]
    · simp [h]
  simp [create_product, hv, errKind]

/-- Witness for C4 at the concrete input from the spec. -/
theorem claim_C4_witness :
    errKind (create_product initState "Widget" "desc" (-1)).1 =
        some .invalidArgument ∧
      (create_product initState "Widget" "desc" (-1)).2 = initState :=
  claim_C4 initState "Widget" "desc" (-1) (Or.inr (by decide))

/-- C5: on a reachable store whose identifiers were all assigned at creation,
get_user on the identifier string nonexistent-id fails with a NotFound
error. -/
theorem claim_C5 (st : StoreState) (hInv : Inv st) (hr : st.reachable = true) :
    errKind (get_user st "nonexistent-id").1 = some .notFound := by
  have hw : wellFormedId "nonexistent-id" = true := by decide
  have hnone :
      st.users.find? (fun d => User.id d == "nonexistent-id") = none := by
    apply List.find?_eq_none.2
    intro u hu
    obtain ⟨k, -, hid⟩ := hInv.1 u hu
    rw [hid]
    simpa using mkId_ne_nonexistent k
  simp [get_user, hw, find_by_id, hr, hnone, errKind]

/-- Witness for C5 at the empty initial state. -/
theorem claim_C5_witness :
    errKind (get_user initState "nonexistent-id").1 = some .notFound :=
  claim_C5 initState (by simp [Inv, initState]) rfl

/-- C10: get_user and get_product never modify the store: whatever the
identifier and the store state, and whatever the outcome, both collections
are exactly as they were before the call. -/
theorem claim_C10 (st : StoreState) (id : String) :
    (get_user st id).2 = st ∧ (get_product st id).2 = st :=
  ⟨get_user_snd st id, get_product_snd st id⟩

/-- C6: on a reachable store satisfying the identifier invariant, get_user
fails with InvalidArgument exactly when the identifier is not well-formed,
fails with NotFound exactly when the identifier is well-formed but no user
document with that identifier exists, and otherwise returns the stored
document; get_product satisfies the same contract over the product
collection; and the adapter find-one call reports a missing document as a
NotFound outcome, not an exception. -/
theorem claim_C6 (st : StoreState) (hInv : Inv st) (hr : st.reachable = true) :
    (∀ id, errKind (get_user st id).1 = some .invalidArgument ↔
      wellFormedId id = false) ∧
    (∀ id, errKind (get_user st id).1 = some .notFound ↔
      (wellFormedId id = true ∧ ∀ u ∈ st.users, u.id ≠ id)) ∧
    (∀ id u, u ∈ st.users → u.id = id → (get_user st id).1 = .ok u) ∧
    (∀ id, errKind (get_product st id).1 = some .invalidArgument ↔
      wellFormedId id = false) ∧
    (∀ id, errKind (get_product st id).1 = some .notFound ↔
      (wellFormedId id = true ∧ ∀ p ∈ st.products, p.id ≠ id)) ∧
    (∀ id p, p ∈ st.products → p.id = id → (get_product st id).1 = .ok p) ∧
    (∀ (α : Type) (key : α → String) (coll : List α) (id : String),
      (∀ d ∈ coll, key d ≠ id) → find_by_id key true coll id = .ok .notFound) := by
  refine ⟨?_, ?_, ?_, ?_, ?_, ?_, ?_⟩
  · intro id
    by_cases hw : wellFormedId id = true
    · rcases hfind : st.users.find? (fun d => User.id d == id) with _ | u <;>
        simp [get_user, hw, find_by_id, hr, hfind, errKind]
    · simp only [Bool.not_eq_true] at hw
      simp [get_user, hw, errKind]
  · intro id
    by_cases hw : wellFormedId id = true
    · rcases hfind : st.users.find? (fun d => User.id d == id) with _ | u
      · simp only [get_user, hw, Bool.not_true, Bool.false_eq_true, if_false,
          find_by_id, hr, if_true, hfind, errKind]
        simp only [Option.some.injEq, true_iff, hw, true_and]
        intro u hu hid
        have := List.find?_eq_none.1 hfind u hu
        simp [hid] at this
      · have humem : u ∈ st.users := List.mem_of_find?_eq_some hfind
        have huid : u.id = id := by
          have := List.find?_some hfind
          simpa using this
        simp only [get_user, hw, Bool.not_true, Bool.false_eq_true, if_false,
          find_by_id, hr, if_true, hfind, errKind]
        simp only [reduceCtorEq, false_iff, not_and, not_forall]
        intro _
        exact ⟨u, humem, fun hne => hne huid⟩
    · simp only [Bool.not_eq_true] at hw
      simp [get_user, hw, errKind]
  · intro id u hu hid
    have hw : wellFormedId id = true := by
      obtain ⟨k, -, hk⟩ := hInv.1 u hu
      rw [← hid, hk]
      exact mkId_wellFormed k
    have hfind := find?_mem_nodup User.id st.users u id hInv.2.2.1 hu hid
    simp [get_user, hw, find_by_id, hr, hfind]
  · intro id
    by_cases hw : wellFormedId id = true
    · rcases hfind : st.products.find? (fun d => Product.id d == id) with _ | p <;>
        simp [get_product, hw, find_by_id, hr, hfind, errKind]
    · simp only [Bool.not_eq_true] at hw
      simp [get_product, hw, errKind]
  · intro id
    by_cases hw : wellFormedId id = true
    · rcases hfind : st.products.find? (fun d => Product.id d == id) with _ | p
      · simp only [get_product, hw, Bool.not_true, Bool.false_eq_true, if_false,
          find_by_id, hr, if_true, hfind, errKind]
        simp only [Option.some.injEq, true_iff, hw, true_and]
        intro p hp hid
        have := List.find?_eq_none.1 hfind p hp
        simp [hid] at this
      · have hpmem : p ∈ st.products := List.mem_of_find?_eq_some hfind
        have hpid : p.id = id := by
          have := List.find?_some hfind
          simpa using this
        simp only [get_product, hw, Bool.not_true, Bool.false_eq_true, if_false,
          find_by_id, hr, if_true, hfind, errKind]
        simp only [reduceCtorEq, false_iff, not_and, not_forall]
        intro _
        exact ⟨p, hpmem, fun hne => hne hpid⟩
    · simp only [Bool.not_eq_true] at hw
      simp [get_product, hw, errKind]
  · intro id p hp hid
    have hw : wellFormedId id = true := by
      obtain ⟨k, -, hk⟩ := hInv.2.1 p hp
      rw [← hid, hk]
      exact mkId_wellFormed k
    have hfind := find?_mem_nodup Product.id st.products p id hInv.2.2.2 hp hid
    simp [get_product, hw, find_by_id, hr, hfind]
  · intro α key coll id hall
    have hnone : coll.find? (fun d => key d == id) = none :=
      List.find?_eq_none.2 fun d hd => by simpa using hall d hd
    simp [find_by_id, hnone]

/-- Witness for C6: on the empty initial state, a well-formed identifier that
matches no document yields NotFound. -/
theorem claim_C6_witness :
    errKind (get_user initState "x").1 = some ErrorKind.notFound := by
  have h := claim_C6 initState (by simp [Inv, initState]) rfl
  exact (h.2.1 "x").2 ⟨by decide, by simp [initState]⟩

/-- C7: two successful sequential create_user calls with identical input
return distinct identifiers, and after any sequence of the four operations
the invariant holds (identifiers unique within each collection) and every
previously stored document is still present, unchanged, in its collection. -/
theorem claim_C7 (st : StoreState) (name email : String) (u1 u2 : User)
    (ops : List Op) (hInv : Inv st)
    (h1 : (create_user st name email).1 = .ok u1)
    (h2 : (create_user (create_user st name email).2 name email).1 = .ok u2) :
    u1.id ≠ u2.id ∧ Inv (runOps st ops) ∧
      ∃ us ps, (runOps st ops).users = st.users ++ us ∧
        (runOps st ops).products = st.products ++ ps := by
  refine ⟨?_, Inv_runOps ops st hInv, runOps_extends ops st⟩
  by_cases hv : (name.isEmpty || email.isEmpty) = true
  · simp [create_user, hv] at h1
  · simp only [Bool.not_eq_true] at hv
    by_cases hr : st.reachable = true
    · have hcu : create_user st name email =
          (.ok ⟨mkId st.nextId, name, email⟩,
           { st with users := st.users ++ [⟨mkId st.nextId, name, email⟩],
                     nextId := st.nextId + 1 }) := by
        simp [create_user, hv, insert_one, hr]
      rw [hcu] at h1 h2
      simp only [Except.ok.injEq] at h1
      have hcu2 : (create_user
          { st with users := st.users ++ [⟨mkId st.nextId, name, email⟩],
                    nextId := st.nextId + 1 } name email).1 =
          .ok ⟨mkId (st.nextId + 1), name, email⟩ := by
        simp [create_user, hv, insert_one, hr]
      rw [hcu2] at h2
      simp only [Except.ok.injEq] at h2
      rw [← h1, ← h2]
      show mkId st.nextId ≠ mkId (st.nextId + 1)
      intro hEq
      exact absurd (mkId_inj hEq) (by omega)
    · simp only [Bool.not_eq_true] at hr
      simp [create_user, hv, insert_one, hr] at h1

/-- Witness for C7: two creations on the empty initial state. -/
theorem claim_C7_witness :
    (⟨mkId 0, "a", "b"⟩ : User).id ≠ (⟨mkId 1, "a", "b"⟩ : User).id ∧
      Inv (runOps initState [Op.createUser "a" "b"]) ∧
      ∃ us ps,
        (runOps initState [Op.createUser "a" "b"]).users =
          initState.users ++ us ∧
        (runOps initState [Op.createUser "a" "b"]).products =
          initState.products ++ ps :=
  claim_C7 initState "a" "b" ⟨mkId 0, "a", "b"⟩ ⟨mkId 1, "a", "b"⟩
    [Op.createUser "a" "b"] (by simp [Inv, initState]) (by rfl) (by rfl)

/-- C8: every failure of the four operations carries one of the three
documented error kinds, a failed operation leaves the persisted state of both
collections unchanged, and an unreachable store surfaces as an Internal
failure on otherwise valid input. -/
theorem claim_C8 (st : StoreState) :
    (∀ name email err, (create_user st name email).1 = .error err →
      (create_user st name email).2 = st ∧
        (err.kind = .invalidArgument ∨ err.kind = .notFound ∨
          err.kind = .internal)) ∧
    (∀ id err, (get_user st id).1 = .error err →
      (get_user st id).2 = st ∧
        (err.kind = .invalidArgument ∨ err.kind = .notFound ∨
          err.kind = .internal)) ∧
    (∀ name description price err,
      (create_product st name description price).1 = .error err →
      (create_product st name description price).2 = st ∧
        (err.kind = .invalidArgument ∨ err.kind = .notFound ∨
          err.kind = .internal)) ∧
    (∀ id err, (get_product st id).1 = .error err →
      (get_product st id).2 = st ∧
        (err.kind = .invalidArgument ∨ err.kind = .notFound ∨
          err.kind = .internal)) ∧
    (st.reachable = false → ∀ name email : String, name.isEmpty = false →
      email.isEmpty = false →
      errKind (create_user st name email).1 = some .internal) ∧
    (st.reachable = false → ∀ (name description : String) (price : Int),
      name.isEmpty = false → decide (price < 0) = false →
      errKind (create_product st name description price).1 =
        some .internal) := by
  refine ⟨?_, ?_, ?_, ?_, ?_, ?_⟩
  · intro name email err h
    exact ⟨create_user_error_snd st name email err h, errorKind_cases err⟩
  · intro id err _
    exact ⟨get_user_snd st id, errorKind_cases err⟩
  · intro name description price err h
    exact ⟨create_product_error_snd st name description price err h,
      errorKind_cases err⟩
  · intro id err _
    exact ⟨get_product_snd st id, errorKind_cases err⟩
  · intro hrf name email hn he
    simp [create_user, hn, he, insert_one, hrf, errKind]
  · intro hrf name description price hn hp
    simp [create_product, hn, hp, insert_one, hrf, errKind]

/-- Witness for C8: a failed creation on an unreachable store is an Internal
failure and leaves the state unchanged. -/
theorem claim_C8_witness :
    (create_user ⟨[], [], 0, false⟩ "a" "b").2 = ⟨[], [], 0, false⟩ ∧
      errKind (create_user ⟨[], [], 0, false⟩ "a" "b").1 = some .internal := by
  have h := claim_C8 ⟨[], [], 0, false⟩
  exact ⟨(h.1 "a" "b" ⟨.internal, "store unreachable"⟩ (by rfl)).1,
    h.2.2.2.2.1 rfl "a" "b" rfl rfl⟩

/-- C9: when OUT_DIR is available, the build script returns Err with a
message naming proto/centrium.proto whenever that file does not exist,
without attempting protocol compilation; otherwise it attempts compilation
and returns Ok when compilation succeeds. -/
theorem claim_C9 (env : BuildEnv) (d : String) (hOut : env.outDir = some d) :
    (env.fileExists protoFile = false →
      buildMain env =
        some ⟨.error ("Proto file " ++ protoFile ++ " not found"), false⟩) ∧
    (env.fileExists protoFile = true →
      ∃ b, buildMain env = some b ∧ b.compileAttempted = true ∧
        (env.compileResult = .ok () → b.result = .ok ())) := by
  constructor
  · intro hex
    simp [buildMain, hOut, hex]
  · intro hex
    rcases hc : env.compileResult with e | u
    · refine ⟨⟨.error e, true⟩, by simp [buildMain, hOut, hex, hc], rfl, ?_⟩
      intro hok
      simp at hok
    · exact ⟨⟨.ok (), true⟩, by simp [buildMain, hOut, hex, hc], rfl,
        fun _ => rfl⟩

/-- Witness for C9 at a concrete environment with the proto file missing. -/
theorem claim_C9_witness :
    buildMain ⟨some "out", fun _ => false, .ok ()⟩ =
      some ⟨.error ("Proto file " ++ protoFile ++ " not found"), false⟩ :=
  (claim_C9 ⟨some "out", fun _ => false, .ok ()⟩ "out" rfl).1 rfl

end ProtegoSei
